import Mathlib

/-!
Verification development for the Papyrus lexer plugin.

The repository provides `src/Plugin/Lexer/Lexer.hpp` (declarations of the
lexer: style states, token/property types, word lists, the `Lex`/`Fold`
entry points and the `tokenize` helper) and
`src/Plugin/UI/MultiTabbedDialog.cpp` (the multi-tabbed configuration
dialog).  The lexer's implementation file is not part of the sources, so
the behaviour of `Lex`, `Fold`, `tokenize` and the style classifier is
modelled from the specification, while the `MultiTabbedDialog` operations
and the style-state enumeration are embedded directly from the source.
-/

namespace Papyrus

/-- Lexer style states, embedded from `Lexer.hpp` lines 92-110: the
`enum class State` listing the seventeen style IDs in declaration order. -/
inductive State where
  | Default
  | Operator
  | FlowControl
  | Type
  | Keyword
  | Keyword2
  | FoldOpen
  | FoldMiddle
  | FoldClose
  | Comment
  | CommentMultiLine
  | CommentDoc
  | Number
  | String
  | Property
  | Class
  | Function
  deriving DecidableEq, Repr

/-- Ordinal of a style state, matching the C++ enumerator values
(consecutive from 0 in declaration order). -/
def State.ordinal : State → Nat
  | .Default => 0
  | .Operator => 1
  | .FlowControl => 2
  | .Type => 3
  | .Keyword => 4
  | .Keyword2 => 5
  | .FoldOpen => 6
  | .FoldMiddle => 7
  | .FoldClose => 8
  | .Comment => 9
  | .CommentMultiLine => 10
  | .CommentDoc => 11
  | .Number => 12
  | .String => 13
  | .Property => 14
  | .Class => 15
  | .Function => 16

/-- The style enumeration in declaration order, as exposed to the
downstream colour-theme mapping. -/
def allStates : List State :=
  [.Default, .Operator, .FlowControl, .Type, .Keyword, .Keyword2,
   .FoldOpen, .FoldMiddle, .FoldClose, .Comment, .CommentMultiLine,
   .CommentDoc, .Number, .String, .Property, .Class, .Function]

/-- Token categories, embedded from `Lexer.hpp` lines 118-122
(`enum class TokenType`). -/
inductive TokenType where
  | Identifier
  | Numeric
  | Special
  deriving DecidableEq, Repr

/-- Tokens, embedded from `Lexer.hpp` lines 123-127 (`struct Token`);
positions are character offsets within the line. -/
structure Token where
  content : String
  tokenType : TokenType
  startPos : Nat
  deriving DecidableEq, Repr

/-- Declared property record, embedded from `Lexer.hpp` lines 113-116
(`struct Property`: a name and the line that declares it). -/
structure Property where
  name : String
  line : Nat
  deriving DecidableEq, Repr

/-- Word lists held by the lexer, embedded from `Lexer.hpp` lines 145-152:
five styling categories and three fold-marker categories.  Members are
stored lowercased; membership is case-insensitive by lowering the probe. -/
structure WordListSet where
  operators : List String
  flowControl : List String
  types : List String
  keywords : List String
  keywords2 : List String
  foldOpen : List String
  foldMiddle : List String
  foldClose : List String
  deriving Repr

/-- Per-document lexer cache, embedded from `Lexer.hpp` lines 158-162:
the list of property declarations (`propertyLines`) and the derived
name set (`propertyNames`) kept in sync with it. -/
structure LexerCache where
  propertyLines : List Property
  propertyNames : List String
  deriving DecidableEq, Repr

/-- Cross-line carry state.  Modelled from the spec: `StyleState`
enumerates which multi-line region is open at a line boundary
("inside multi-line comment", "inside documentation comment", default). -/
inductive StyleState where
  | Default
  | CommentMultiLine
  | CommentDoc
  deriving DecidableEq, Repr

/-- Case folding used for the case-insensitive word-list and
property-name membership tests (character-wise lowering of the
string's characters). -/
def toLowerStr (s : String) : String :=
  String.mk (s.data.map Char.toLower)

/-- Character class test for identifier continuation.  Modelled from the
spec: identifiers are maximal runs of letters, digits and the
identifier-continuation character, not starting with a digit. -/
def isWordChar (c : Char) : Bool :=
  c.isAlpha || c.isDigit || c = '_'

/-- Character class test for identifier start. -/
def isIdentStart (c : Char) : Bool :=
  c.isAlpha || c = '_'

/-- Character class test for numeric-literal continuation.  Modelled from
the spec: numeric tokens are maximal runs of lexical number shape
(decimal and hexadecimal); well-formedness is not validated. -/
def isNumChar (c : Char) : Bool :=
  c.isDigit || c.isAlpha

/-- Fuel-indexed tokenizer worker.  Modelled from the spec: `tokenize`
scans one line into identifier, numeric and special tokens; whitespace is
consumed and never emitted; each step consumes at least one character, so
fuel equal to the line length suffices. -/
def tokenizeGo (ws : WordListSet) : Nat → List Char → Nat → List Token
  | 0, _, _ => []
  | _, [], _ => []
  | fuel + 1, c :: rest, pos =>
    if c = ' ' ∨ c = '\t' then
      tokenizeGo ws fuel rest (pos + 1)
    else if isIdentStart c then
      let run := rest.takeWhile isWordChar
      ⟨String.mk (c :: run), TokenType.Identifier, pos⟩ ::
        tokenizeGo ws fuel (rest.drop run.length) (pos + 1 + run.length)
    else if c.isDigit then
      let run := rest.takeWhile isNumChar
      ⟨String.mk (c :: run), TokenType.Numeric, pos⟩ ::
        tokenizeGo ws fuel (rest.drop run.length) (pos + 1 + run.length)
    else
      ⟨String.mk [c], TokenType.Special, pos⟩ :: tokenizeGo ws fuel rest (pos + 1)

/-- Modelled from the spec: `Lexer::tokenize` (declared `const` in
`Lexer.hpp` line 130; the implementation file is absent from the sources)
parses a text line into its token sequence. -/
def tokenize (ws : WordListSet) (line : List Char) : List Token :=
  tokenizeGo ws line.length line 0

/-- Modelled from the spec: the style classifier resolves an identifier
token against the word lists in a fixed precedence — operators,
flow-control, types, keywords, keywords2, then the declared-property-name
check, then the plain identifier/default style.  Membership is
case-insensitive (lists hold lowercased words). -/
def classifyIdent (ws : WordListSet) (names : List String) (w : String) : State :=
  let lw := toLowerStr w
  if ws.operators.contains lw then State.Operator
  else if ws.flowControl.contains lw then State.FlowControl
  else if ws.types.contains lw then State.Type
  else if ws.keywords.contains lw then State.Keyword
  else if ws.keywords2.contains lw then State.Keyword2
  else if names.contains lw then State.Property
  else State.Default

/-- Fuel-indexed per-line styler.  Modelled from the spec: walks one line
character by character carrying the cross-line state; an open multi-line
comment styles everything up to its terminator (`/;`), an open
documentation comment up to `\x7d`; in the default state `;/` opens a
multi-line comment, `;` starts a line comment, `\x7b` opens a
documentation comment, `"` starts a single-line string (unterminated
strings close at end of line), identifiers are classified through
`classifyIdent`, digits style as numbers and other specials as operators.
Each step consumes at least one character, so fuel equal to the line
length suffices. -/
def styleGo (ws : WordListSet) (names : List String) :
    Nat → StyleState → List Char → List State × StyleState
  | 0, st, _ => ([], st)
  | _, st, [] => ([], st)
  | fuel + 1, StyleState.CommentMultiLine, c :: rest =>
    if c = '/' ∧ rest.head? = some ';' then
      let r := styleGo ws names fuel StyleState.Default (rest.drop 1)
      (State.CommentMultiLine :: State.CommentMultiLine :: r.1, r.2)
    else
      let r := styleGo ws names fuel StyleState.CommentMultiLine rest
      (State.CommentMultiLine :: r.1, r.2)
  | fuel + 1, StyleState.CommentDoc, c :: rest =>
    if c = '}' then
      let r := styleGo ws names fuel StyleState.Default rest
      (State.CommentDoc :: r.1, r.2)
    else
      let r := styleGo ws names fuel StyleState.CommentDoc rest
      (State.CommentDoc :: r.1, r.2)
  | fuel + 1, StyleState.Default, c :: rest =>
    if c = ';' ∧ rest.head? = some '/' then
      let r := styleGo ws names fuel StyleState.CommentMultiLine (rest.drop 1)
      (State.CommentMultiLine :: State.CommentMultiLine :: r.1, r.2)
    else if c = ';' then
      (State.Comment :: rest.map (fun _ => State.Comment), StyleState.Default)
    else if c = '{' then
      let r := styleGo ws names fuel StyleState.CommentDoc rest
      (State.CommentDoc :: r.1, r.2)
    else if c = '"' then
      let body := rest.takeWhile (fun x => x ≠ '"')
      if body.length = rest.length then
        (List.replicate (rest.length + 1) State.String, StyleState.Default)
      else
        let r := styleGo ws names fuel StyleState.Default (rest.drop (body.length + 1))
        (List.replicate (body.length + 2) State.String ++ r.1, r.2)
    else if isIdentStart c then
      let run := rest.takeWhile isWordChar
      let s := classifyIdent ws names (String.mk (c :: run))
      let r := styleGo ws names fuel StyleState.Default (rest.drop run.length)
      (List.replicate (run.length + 1) s ++ r.1, r.2)
    else if c.isDigit then
      let run := rest.takeWhile isNumChar
      let r := styleGo ws names fuel StyleState.Default (rest.drop run.length)
      (List.replicate (run.length + 1) State.Number ++ r.1, r.2)
    else if c = ' ' ∨ c = '\t' then
      let r := styleGo ws names fuel StyleState.Default rest
      (State.Default :: r.1, r.2)
    else
      let r := styleGo ws names fuel StyleState.Default rest
      (State.Operator :: r.1, r.2)

/-- Per-line styling pass: one style tag per character of the line, plus
the carry state at the line's end. -/
def styleLine (ws : WordListSet) (names : List String) (st : StyleState)
    (line : List Char) : List State × StyleState :=
  styleGo ws names line.length st line

/-- Declaration recognizer over a token stream.  Modelled from the spec:
a property declaration is the keyword `property` followed by a type and
the declared name (the spec's example line `Property Int Health Auto`
records `Health`); declared names are stored lowercased. -/
def declaredNamesFrom : List Token → List String
  | t1 :: t2 :: t3 :: rest =>
    if t1.tokenType = TokenType.Identifier ∧ toLowerStr t1.content = "property"
        ∧ t2.tokenType = TokenType.Identifier ∧ t3.tokenType = TokenType.Identifier then
      toLowerStr t3.content :: declaredNamesFrom (t2 :: t3 :: rest)
    else
      declaredNamesFrom (t2 :: t3 :: rest)
  | _ => []

/-- Property names declared by one line of text. -/
def lineDeclaredNames (ws : WordListSet) (line : List Char) : List String :=
  declaredNamesFrom (tokenize ws line)

/-- Per-line cache maintenance.  Modelled from the spec: on a relex of a
line, any previously cached property declared on exactly that line is
removed first, then re-added if the line still declares one; the
`propertyNames` set is kept in sync with the `propertyLines` list. -/
def relexLine (ws : WordListSet) (cache : LexerCache) (ln : Nat)
    (line : List Char) : LexerCache :=
  let kept := cache.propertyLines.filter (fun p => p.line ≠ ln)
  let added := (lineDeclaredNames ws line).map (fun n => Property.mk n ln)
  let newLines := kept ++ added
  ⟨newLines, newLines.map (fun p => p.name)⟩

/-- One full line step of the `Lex` pass: refresh the property cache for
the line, then style its characters against the refreshed name set. -/
def lexLine (ws : WordListSet) (cache : LexerCache) (ln : Nat)
    (line : List Char) (st : StyleState) :
    List State × StyleState × LexerCache :=
  let cache' := relexLine ws cache ln line
  let r := styleLine ws cache'.propertyNames st line
  (r.1, r.2, cache')

/-- Line iteration of the `Lex` pass: thread the carry state and the
property cache from each line's end to the next line's start, collecting
the per-line style writes. -/
def lexLines (ws : WordListSet) (cache : LexerCache) (st : StyleState)
    (ln : Nat) : List (List Char) → List (List State) × StyleState × LexerCache
  | [] => ([], st, cache)
  | l :: rest =>
    let r := lexLine ws cache ln l st
    let rr := lexLines ws r.2.2 r.2.1 (ln + 1) rest
    (r.1 :: rr.1, rr.2)

/-- Modelled from the spec: `Lexer::Lex` (declared in `Lexer.hpp` line 79;
the implementation file is absent from the sources) first checks the
configuration-availability predicate `isUsable` and is a no-op when it is
false; otherwise it iterates the requested lines, feeding each through
tokenizer and style classifier, threading the carry state, and emits the
style writes (returned here as per-line style lists). -/
def Lex (ws : WordListSet) (usable : Bool) (doc : List (List Char))
    (startLine count : Nat) (initStyle : StyleState) (cache : LexerCache) :
    List (List State) × StyleState × LexerCache :=
  if usable then
    lexLines ws cache initStyle startLine ((doc.drop startLine).take count)
  else
    ([], initStyle, cache)

/-- Fold-marker walk over one line's tokens.  Modelled from the spec:
each identifier matching the fold-open list increments the depth, each
matching fold-close decrements it clamped at zero, fold-middle markers
cause no net change. -/
def foldDelta (ws : WordListSet) : List Token → Int → Int
  | [], d => d
  | t :: ts, d =>
    if t.tokenType = TokenType.Identifier ∧ ws.foldOpen.contains (toLowerStr t.content) then
      foldDelta ws ts (d + 1)
    else if t.tokenType = TokenType.Identifier ∧ ws.foldClose.contains (toLowerStr t.content) then
      foldDelta ws ts (max 0 (d - 1))
    else
      foldDelta ws ts d

/-- Line iteration of the `Fold` pass: each line reports the depth before
its own opens together with a header flag when the line net-increases
depth, and the final depth is carried out. -/
def foldLines (ws : WordListSet) : List (List Char) → Int → List (Int × Bool) × Int
  | [], d => ([], d)
  | l :: rest, d =>
    let d' := foldDelta ws (tokenize ws l) d
    let rr := foldLines ws rest d'
    ((d, decide (d < d')) :: rr.1, rr.2)

/-- Modelled from the spec: `Lexer::Fold` (declared in `Lexer.hpp` line
80; the implementation file is absent from the sources) first checks the
configuration-availability predicate `isUsable` and is a no-op when it is
false; otherwise it walks the requested lines computing fold levels
(returned here as per-line level/header pairs). -/
def Fold (ws : WordListSet) (usable : Bool) (doc : List (List Char))
    (startLine count : Nat) (initDepth : Int) : List (Int × Bool) × Int :=
  if usable then
    foldLines ws ((doc.drop startLine).take count) initDepth
  else
    ([], initDepth)

/-- Instance-state view of a `tokenize` call: the source declares
`tokenize` as a `const` member, so a call returns the token sequence and
leaves the per-document cache untouched. -/
def tokenizeCall (ws : WordListSet) (cache : LexerCache) (line : List Char) :
    List Token × LexerCache :=
  (tokenize ws line, cache)

/-- Per-tab bookkeeping, embedded from `MultiTabbedDialog`: the dialog
resource ID and whether the tab's dialog window has been created (the
window handle being non-null). -/
structure TabItem where
  dialogID : Int
  created : Bool
  deriving DecidableEq, Repr

/-- UI effects issued by the dialog methods through Win32 calls, recorded
so that frame conditions ("no window is destroyed", "no visibility
change") can be stated. -/
inductive UIEvent where
  | setVisibility (tab : Int) (visible : Bool)
  | createDialog (tab : Int)
  | selectTab (tab : Int)
  | deleteTabItem (tab : Int)
  deriving DecidableEq, Repr

/-- State of a `MultiTabbedDialog`, embedded from `MultiTabbedDialog.hpp`
usage in `MultiTabbedDialog.cpp`: the visible `tabs` list (tab IDs in
order), the `hiddenTabs` list, the `tabItems` map (an association list),
and `currentTab` (negative when no tab is shown). -/
structure DialogState where
  tabs : List Int
  hiddenTabs : List Int
  tabItems : List (Int × TabItem)
  currentTab : Int
  deriving DecidableEq, Repr

/-- Lookup in the `tabItems` map with C++ `operator[]` semantics: a
missing key yields a value-initialized `TabItem` (dialogID 0). -/
def lookupItem (items : List (Int × TabItem)) (t : Int) : TabItem :=
  match items.find? (fun p => p.1 = t) with
  | some p => p.2
  | none => ⟨0, false⟩

/-- Whether the tab's dialog window has been created
(`isTabDialogCreated`). -/
def isTabDialogCreated (s : DialogState) (t : Int) : Bool :=
  (lookupItem s.tabItems t).created

/-- Embedded from `MultiTabbedDialog::createTabDialog` (lines 129-136):
when the tab is in the visible list, create its dialog window (recording
the handle in `tabItems`). -/
def createTabDialog (s : DialogState) (t : Int) : DialogState × List UIEvent :=
  if t ∈ s.tabs then
    ({ s with tabItems :=
        s.tabItems.map (fun p => if p.1 = t then (p.1, ⟨p.2.dialogID, true⟩) else p) },
      [UIEvent.createDialog t])
  else
    (s, [])

/-- Embedded from `MultiTabbedDialog::removeTab` (lines 37-57): when the
tab is found in the visible list it is removed from the tabs control;
with `destroy` its window is destroyed and its entries erased, otherwise
it is spliced to the end of `hiddenTabs`; the call returns whether the
tab was found.  The result carries the returned Bool, the new state, and
the list of tab IDs whose dialog windows were destroyed. -/
def removeTab (s : DialogState) (t : Int) (destroy : Bool) :
    Bool × DialogState × List Int :=
  if t ∈ s.tabs then
    if destroy then
      (true,
        { s with tabs := s.tabs.erase t,
                 tabItems := s.tabItems.filter (fun p => p.1 ≠ t) },
        [t])
    else
      (true,
        { s with tabs := s.tabs.erase t,
                 hiddenTabs := s.hiddenTabs ++ [t] },
        [])
  else
    (false, s, [])

/-- Embedded from `MultiTabbedDialog::showTab` (lines 59-72): when the
requested tab is not the current one, hide the current tab (if any), make
the requested tab current, create its dialog lazily if needed, show it
and select it in the tabs control; otherwise do nothing. -/
def showTab (s : DialogState) (t : Int) : DialogState × List UIEvent :=
  if s.currentTab ≠ t then
    let ev0 := if s.currentTab ≥ 0 then [UIEvent.setVisibility s.currentTab false] else []
    let s1 := { s with currentTab := t }
    let r :=
      if isTabDialogCreated s1 t then (s1, ([] : List UIEvent))
      else createTabDialog s1 t
    (r.1, ev0 ++ r.2 ++ [UIEvent.setVisibility t true, UIEvent.selectTab t])
  else
    (s, [])

/-- List insertion at an index (clamped to the end), used to model
inserting before the `pos` iterator of `std::list`. -/
def insertAt (l : List Int) (pos : Nat) (x : Int) : List Int :=
  l.take pos ++ x :: l.drop pos

/-- Embedded from `MultiTabbedDialog::addTabAt` (lines 138-188): when the
tab ID already exists (visible or hidden) with a different dialog
resource ID the call throws `std::invalid_argument`; an existing tab with
the matching dialog ID is spliced back into the visible list (note the
C++ splices out of `auto list = ...`, a copy of the source list); a new
tab is inserted with its item record, creating the dialog now unless
`lazyInitialization`. -/
def addTabAt (s : DialogState) (t : Int) (dialogID : Int) (pos : Nat)
    (lazyInitialization : Bool) :
    Except String (DialogState × List UIEvent) :=
  if t ∈ s.tabs ∨ t ∈ s.hiddenTabs then
    if (lookupItem s.tabItems t).dialogID ≠ dialogID then
      Except.error "Cannot use the same tab ID for different dialogs"
    else if t ∈ s.tabs then
      Except.ok ({ s with tabs := insertAt (s.tabs.erase t) pos t }, [])
    else
      Except.ok ({ s with tabs := insertAt s.tabs pos t }, [])
  else
    let s1 := { s with tabs := insertAt s.tabs pos t,
                       tabItems := s.tabItems ++ [(t, ⟨dialogID, false⟩)] }
    if lazyInitialization then
      Except.ok (s1, [])
    else
      Except.ok (createTabDialog s1 t)

/-- Auxiliary: a fold-marker walk started at a non-negative depth ends at
a non-negative depth, since the decrement is clamped at zero. -/
theorem foldDelta_nonneg (ws : WordListSet) (ts : List Token) :
    ∀ d : Int, 0 ≤ d → 0 ≤ foldDelta ws ts d := by
  induction ts with
  | nil => intro d h; simpa [foldDelta] using h
  | cons t ts ih =>
    intro d h
    unfold foldDelta
    split
    · exact ih _ (by omega)
    · split
      · exact ih _ (le_max_left 0 _)
      · exact ih _ h

/-- C6: the style IDs exposed to the downstream colour-theme mapping form
a fixed enumeration consisting exactly of Default, Operator, FlowControl,
Type, Keyword, Keyword2, FoldOpen, FoldMiddle, FoldClose, Comment,
CommentMultiLine, CommentDoc, Number, String, Property, Class, Function,
consumed by ordinal in that order (ordinals 0 through 16). -/
theorem style_state_enumeration :
    (∀ s : State, s ∈ allStates) ∧
    allStates.map State.ordinal = List.range 17 ∧ allStates.Nodup := by
  refine ⟨fun s => ?_, by decide, by decide⟩
  cases s <;> simp [allStates]

/-- C5: when the configuration-availability predicate `isUsable` is
false, both `Lex` and `Fold` perform no work: they emit no style or fold
writes and leave the carry state and the property cache unchanged. -/
theorem usability_gate_noop (ws : WordListSet) (doc : List (List Char))
    (startLine count : Nat) (initStyle : StyleState) (cache : LexerCache)
    (initDepth : Int) :
    Lex ws false doc startLine count initStyle cache = ([], initStyle, cache) ∧
    Fold ws false doc startLine count initDepth = ([], initDepth) :=
  ⟨rfl, rfl⟩

/-- C7: `tokenize` is a side-effect-free, deterministic function of the
line content: a call leaves the lexer's per-document cache (property
lines and names) unchanged, and a second call over the same line yields
the identical token sequence. -/
theorem tokenize_pure (ws : WordListSet) (cache : LexerCache) (line : List Char) :
    (tokenizeCall ws cache line).2 = cache ∧
    (tokenizeCall ws (tokenizeCall ws cache line).2 line).1 =
      (tokenizeCall ws cache line).1 :=
  ⟨rfl, rfl⟩

/-- C3: fold depths are never negative: over any token sequence, and over
any sequence of lines walked by `Fold`, a non-negative starting depth
yields a non-negative final depth and non-negative reported per-line
levels, the per-marker decrement being clamped at zero. -/
theorem fold_depth_nonneg (ws : WordListSet) (lines : List (List Char))
    (d : Int) (h : 0 ≤ d) :
    (∀ ts : List Token, 0 ≤ foldDelta ws ts d) ∧
    0 ≤ (foldLines ws lines d).2 ∧
    ∀ p ∈ (foldLines ws lines d).1, 0 ≤ p.1 := by
  refine ⟨fun ts => foldDelta_nonneg ws ts d h, ?_⟩
  induction lines generalizing d with
  | nil => exact ⟨h, by simp [foldLines]⟩
  | cons l rest ih =>
    have hd' : 0 ≤ foldDelta ws (tokenize ws l) d :=
      foldDelta_nonneg ws (tokenize ws l) d h
    obtain ⟨h1, h2⟩ := ih _ hd'
    refine ⟨by simpa [foldLines] using h1, ?_⟩
    intro p hp
    simp only [foldLines, List.mem_cons] at hp
    rcases hp with hp | hp
    · simp [hp, h]
    · exact h2 p hp

/-- Witness for C3 at a concrete input: a line with two fold-close
markers and no opens leaves the carried depth at zero, not below it. -/
theorem fold_depth_nonneg_witness :
    (0 : Int) ≤ (foldLines ⟨[], [], [], [], [], ["if"], [], ["endif"]⟩
      [['e','n','d','i','f',' ','e','n','d','i','f']] 0).2 :=
  (fold_depth_nonneg ⟨[], [], [], [], [], ["if"], [], ["endif"]⟩
    [['e','n','d','i','f',' ','e','n','d','i','f']] 0 (by decide)).2.1

/-- C10: showing the tab that is already current changes nothing:
`showTab` leaves the whole dialog state (including `currentTab`)
unchanged, creates no tab dialog, and issues no visibility or
tab-selection effect. -/
theorem showTab_noop_current (s : DialogState) (t : Int)
    (h : s.currentTab = t) :
    showTab s t = (s, []) := by
  simp [showTab, h]

/-- Witness for C10 at a concrete input: re-showing current tab 1 leaves
the state unchanged and issues no UI effect. -/
theorem showTab_noop_current_witness :
    showTab ⟨[1, 2], [], [(1, ⟨10, true⟩), (2, ⟨20, false⟩)], 1⟩ 1 =
      (⟨[1, 2], [], [(1, ⟨10, true⟩), (2, ⟨20, false⟩)], 1⟩, []) :=
  showTab_noop_current ⟨[1, 2], [], [(1, ⟨10, true⟩), (2, ⟨20, false⟩)], 1⟩ 1 rfl

/-- C9: `removeTab` returns true exactly when the tab is in the visible
tabs list; when it returns false the tabs, hiddenTabs and tabItems are
all left unchanged; and a successful removal with `destroy = false`
destroys no dialog window, keeps `tabItems`, and moves the tab entry to
the end of `hiddenTabs` so it can be re-added later. -/
theorem removeTab_found_iff (s : DialogState) (t : Int) (destroy : Bool) :
    ((removeTab s t destroy).1 = true ↔ t ∈ s.tabs) ∧
    ((removeTab s t destroy).1 = false →
      (removeTab s t destroy).2.1.tabs = s.tabs ∧
      (removeTab s t destroy).2.1.hiddenTabs = s.hiddenTabs ∧
      (removeTab s t destroy).2.1.tabItems = s.tabItems) ∧
    (destroy = false → t ∈ s.tabs →
      (removeTab s t destroy).2.2 = [] ∧
      (removeTab s t destroy).2.1.tabItems = s.tabItems ∧
      (removeTab s t destroy).2.1.hiddenTabs = s.hiddenTabs ++ [t] ∧
      (removeTab s t destroy).2.1.tabs = s.tabs.erase t) := by
  by_cases h : t ∈ s.tabs
  · cases destroy <;> simp [removeTab, h]
  · cases destroy <;> simp [removeTab, h]

/-- Witness for C9 at a concrete input: removing present tab 2 with
`destroy = false` destroys nothing, keeps the item map and moves the tab
to the end of the hidden list. -/
theorem removeTab_found_iff_witness :
    (removeTab ⟨[1, 2], [3], [(1, ⟨10, true⟩), (2, ⟨20, true⟩)], 1⟩ 2 false).2.2 = [] ∧
    (removeTab ⟨[1, 2], [3], [(1, ⟨10, true⟩), (2, ⟨20, true⟩)], 1⟩ 2 false).2.1.tabItems =
      [(1, ⟨10, true⟩), (2, ⟨20, true⟩)] ∧
    (removeTab ⟨[1, 2], [3], [(1, ⟨10, true⟩), (2, ⟨20, true⟩)], 1⟩ 2 false).2.1.hiddenTabs =
      [3] ++ [2] ∧
    (removeTab ⟨[1, 2], [3], [(1, ⟨10, true⟩), (2, ⟨20, true⟩)], 1⟩ 2 false).2.1.tabs =
      ([1, 2] : List Int).erase 2 :=
  (removeTab_found_iff ⟨[1, 2], [3], [(1, ⟨10, true⟩), (2, ⟨20, true⟩)], 1⟩ 2
    false).2.2 rfl (by decide)

/-- C8: re-adding an existing tab ID (visible or hidden) with a different
dialog resource ID through `addTabAt` fails with the invalid-argument
error reported to the UI caller; no state change or lexer interaction
takes place. -/
theorem addTab_duplicate_invalid (s : DialogState) (t dialogID : Int)
    (pos : Nat) (lazyInitialization : Bool)
    (hfound : t ∈ s.tabs ∨ t ∈ s.hiddenTabs)
    (hdiff : (lookupItem s.tabItems t).dialogID ≠ dialogID) :
    addTabAt s t dialogID pos lazyInitialization =
      Except.error "Cannot use the same tab ID for different dialogs" := by
  unfold addTabAt
  rw [if_pos hfound, if_pos hdiff]

/-- Witness for C8 at a concrete input: tab 1 exists with dialog resource
10; re-adding it with resource 11 fails with the invalid-argument
error. -/
theorem addTab_duplicate_invalid_witness :
    addTabAt ⟨[1], [], [(1, ⟨10, true⟩)], 1⟩ 1 11 0 false =
      Except.error "Cannot use the same tab ID for different dialogs" :=
  addTab_duplicate_invalid ⟨[1], [], [(1, ⟨10, true⟩)], 1⟩ 1 11 0 false
    (by decide) (by decide)

/-- C4: relexing line L first removes from the property cache (and hence
from the property-name set) every property declared on exactly that line,
then re-adds entries only for what L still declares; consequently, when
every cached entry for a name sat on line L and L no longer declares it,
the name is gone from the name set, any remaining entry for line L names
a current declaration, and a subsequent classification of an identifier
matching the deleted name can no longer yield the Property style. -/
theorem property_cache_relex (ws : WordListSet) (cache : LexerCache)
    (ln : Nat) (line : List Char) (name : String)
    (h1 : ∀ p ∈ cache.propertyLines, p.name = name → p.line = ln)
    (h2 : name ∉ lineDeclaredNames ws line) :
    name ∉ (relexLine ws cache ln line).propertyNames ∧
    (∀ p ∈ (relexLine ws cache ln line).propertyLines,
      p.line = ln → p.name ∈ lineDeclaredNames ws line) ∧
    ∀ (ws2 : WordListSet) (w : String), toLowerStr w = name →
      classifyIdent ws2 (relexLine ws cache ln line).propertyNames w ≠ State.Property := by
  have hA : name ∉ (relexLine ws cache ln line).propertyNames := by
    intro hmem
    simp only [relexLine] at hmem
    rw [List.mem_map] at hmem
    obtain ⟨p, hp, hpname⟩ := hmem
    rw [List.mem_append] at hp
    rcases hp with hp | hp
    · rw [List.mem_filter] at hp
      have hl := h1 p hp.1 hpname
      simp [hl] at hp
    · rw [List.mem_map] at hp
      obtain ⟨n, hn, rfl⟩ := hp
      exact h2 (hpname ▸ hn)
  have hB : ∀ p ∈ (relexLine ws cache ln line).propertyLines,
      p.line = ln → p.name ∈ lineDeclaredNames ws line := by
    intro p hp hpl
    simp only [relexLine] at hp
    rw [List.mem_append] at hp
    rcases hp with hp | hp
    · rw [List.mem_filter] at hp
      simp [hpl] at hp
    · rw [List.mem_map] at hp
      obtain ⟨n, hn, rfl⟩ := hp
      simpa using hn
  refine ⟨hA, hB, ?_⟩
  intro ws2 w hw
  have hn : toLowerStr w ∉ (relexLine ws cache ln line).propertyNames := hw ▸ hA
  simp only [classifyIdent]
  split
  · simp
  · split
    · simp
    · split
      · simp
      · split
        · simp
        · split
          · simp
          · split
            · rename_i hmem
              exact absurd (by simpa using hmem) hn
            · simp

/-- Witness for C4 at a concrete input: the cache holds `health` declared
on line 5 only; relexing line 5 with content `x` (which declares no
property) removes `health` from the name set. -/
theorem property_cache_relex_witness :
    "health" ∉ (relexLine ⟨[], [], [], [], [], [], [], []⟩
      ⟨[⟨"health", 5⟩], ["health"]⟩ 5 ['x']).propertyNames :=
  (property_cache_relex ⟨[], [], [], [], [], [], [], []⟩
    ⟨[⟨"health", 5⟩], ["health"]⟩ 5 ['x'] "health"
    (by decide) (by decide)).1

/-- Auxiliary: an identifier-start character is none of the comment,
documentation-comment or string delimiters. -/
theorem identStart_facts (c : Char) (h : isIdentStart c = true) :
    c ≠ ';' ∧ c ≠ '{' ∧ c ≠ '"' := by
  refine ⟨?_, ?_, ?_⟩ <;> (rintro rfl; revert h; decide)

/-- Auxiliary: the styler on an empty remainder returns no styles and the
unchanged carry state, for any fuel. -/
theorem styleGo_nil (ws : WordListSet) (names : List String) (fuel : Nat)
    (st : StyleState) : styleGo ws names fuel st [] = ([], st) := by
  cases fuel <;> cases st <;> rfl

/-- C2: an identifier token outside any open comment or string is
resolved against the word lists in the fixed precedence operators,
flow-control, types, keywords, keywords2, then the declared-property-name
check, then the plain identifier/default style: the first matching
category determines the style; and the per-line styler assigns exactly
that one style to every character of such an identifier. -/
theorem classifier_precedence (ws : WordListSet) (names : List String)
    (w : String) :
    (toLowerStr w ∈ ws.operators → classifyIdent ws names w = State.Operator) ∧
    (toLowerStr w ∉ ws.operators → toLowerStr w ∈ ws.flowControl →
      classifyIdent ws names w = State.FlowControl) ∧
    (toLowerStr w ∉ ws.operators → toLowerStr w ∉ ws.flowControl →
      toLowerStr w ∈ ws.types → classifyIdent ws names w = State.Type) ∧
    (toLowerStr w ∉ ws.operators → toLowerStr w ∉ ws.flowControl →
      toLowerStr w ∉ ws.types → toLowerStr w ∈ ws.keywords →
      classifyIdent ws names w = State.Keyword) ∧
    (toLowerStr w ∉ ws.operators → toLowerStr w ∉ ws.flowControl →
      toLowerStr w ∉ ws.types → toLowerStr w ∉ ws.keywords →
      toLowerStr w ∈ ws.keywords2 → classifyIdent ws names w = State.Keyword2) ∧
    (toLowerStr w ∉ ws.operators → toLowerStr w ∉ ws.flowControl →
      toLowerStr w ∉ ws.types → toLowerStr w ∉ ws.keywords →
      toLowerStr w ∉ ws.keywords2 → toLowerStr w ∈ names →
      classifyIdent ws names w = State.Property) ∧
    (toLowerStr w ∉ ws.operators → toLowerStr w ∉ ws.flowControl →
      toLowerStr w ∉ ws.types → toLowerStr w ∉ ws.keywords →
      toLowerStr w ∉ ws.keywords2 → toLowerStr w ∉ names →
      classifyIdent ws names w = State.Default) ∧
    ∀ c cs, isIdentStart c = true → (∀ x ∈ cs, isWordChar x = true) →
      w = String.mk (c :: cs) →
      styleLine ws names StyleState.Default (c :: cs) =
        (List.replicate (cs.length + 1) (classifyIdent ws names w),
          StyleState.Default) := by
  refine ⟨?_, ?_, ?_, ?_, ?_, ?_, ?_, ?_⟩
  · intro h1; simp [classifyIdent, h1]
  · intro h1 h2; simp [classifyIdent, h1, h2]
  · intro h1 h2 h3; simp [classifyIdent, h1, h2, h3]
  · intro h1 h2 h3 h4; simp [classifyIdent, h1, h2, h3, h4]
  · intro h1 h2 h3 h4 h5; simp [classifyIdent, h1, h2, h3, h4, h5]
  · intro h1 h2 h3 h4 h5 h6; simp [classifyIdent, h1, h2, h3, h4, h5, h6]
  · intro h1 h2 h3 h4 h5 h6; simp [classifyIdent, h1, h2, h3, h4, h5, h6]
  · intro c cs hc hcs hww
    obtain ⟨hne1, hne2, hne3⟩ := identStart_facts c hc
    have htake : cs.takeWhile isWordChar = cs := List.takeWhile_eq_self_iff.mpr hcs
    simp only [styleLine, List.length_cons, styleGo]
    rw [if_neg (fun hx => hne1 hx.1), if_neg hne1, if_neg hne2, if_neg hne3,
      if_pos hc, htake]
    simp [List.drop_length, styleGo_nil, hww]

/-- Witness for C2 at a concrete input: `while` is configured both as an
operator and as a type; the precedence picks Operator, and the styler
paints each character of the identifier line `while` with that single
style. -/
theorem classifier_precedence_witness :
    classifyIdent ⟨["while"], [], ["while"], [], [], [], [], []⟩ [] "while" =
      State.Operator ∧
    styleLine ⟨["while"], [], ["while"], [], [], [], [], []⟩ []
        StyleState.Default ['w', 'h', 'i', 'l', 'e'] =
      (List.replicate 5
        (classifyIdent ⟨["while"], [], ["while"], [], [], [], [], []⟩ [] "while"),
        StyleState.Default) :=
  ⟨(classifier_precedence ⟨["while"], [], ["while"], [], [], [], [], []⟩ []
      "while").1 (by decide),
   (classifier_precedence ⟨["while"], [], ["while"], [], [], [], [], []⟩ []
      "while").2.2.2.2.2.2.2 'w' ['h', 'i', 'l', 'e'] (by decide) (by decide)
      (by decide)⟩

/-- Auxiliary: the `Lex` pass emits exactly one style list per line. -/
theorem lexLines_length (ws : WordListSet) (cache : LexerCache)
    (st : StyleState) (ln : Nat) (ls : List (List Char)) :
    (lexLines ws cache st ln ls).1.length = ls.length := by
  induction ls generalizing cache st ln with
  | nil => simp [lexLines]
  | cons l rest ih => simp [lexLines, ih]

/-- Auxiliary: the `Lex` pass over a concatenation of line blocks is the
pass over the first block followed by the pass over the second block
started from the carry state and cache the first block ends with. -/
theorem lexLines_append (ws : WordListSet) (xs ys : List (List Char))
    (cache : LexerCache) (st : StyleState) (ln : Nat) :
    lexLines ws cache st ln (xs ++ ys) =
      ((lexLines ws cache st ln xs).1 ++
        (lexLines ws (lexLines ws cache st ln xs).2.2
          (lexLines ws cache st ln xs).2.1 (ln + xs.length) ys).1,
       (lexLines ws (lexLines ws cache st ln xs).2.2
          (lexLines ws cache st ln xs).2.1 (ln + xs.length) ys).2) := by
  induction xs generalizing cache st ln with
  | nil => simp [lexLines]
  | cons x xs ih =>
    have harith : ln + 1 + xs.length = ln + (xs.length + 1) := by omega
    simp only [List.cons_append, lexLines, List.append_eq, ih,
      List.length_cons, harith]

/-- C1 amended: re-lexing the sub-range of whole lines `[i, i+n)` with
the carried-in state the whole-document lex reaches at that boundary —
its cross-line StyleState together with its property-cache state —
produces exactly the style tags the whole-document lex assigns to those
lines. -/
theorem lex_range_consistency (ws : WordListSet) (doc : List (List Char))
    (i n : Nat) (cache : LexerCache) (st : StyleState)
    (h : i + n ≤ doc.length) :
    (Lex ws true doc i n
        (lexLines ws cache st 0 (doc.take i)).2.1
        (lexLines ws cache st 0 (doc.take i)).2.2).1 =
      ((lexLines ws cache st 0 doc).1.drop i).take n := by
  have hi : i ≤ doc.length := by omega
  have hlen1 : (doc.take i).length = i := by
    rw [List.length_take]; omega
  have hlen2 : ((doc.drop i).take n).length = n := by
    rw [List.length_take, List.length_drop]; omega
  have hdoc : doc = doc.take i ++ ((doc.drop i).take n ++ (doc.drop i).drop n) := by
    rw [List.take_append_drop, List.take_append_drop]
  conv_rhs => rw [hdoc]
  rw [lexLines_append, lexLines_append]
  have hpre : (lexLines ws cache st 0 (doc.take i)).1.length = i := by
    rw [lexLines_length, hlen1]
  have hmid : (lexLines ws (lexLines ws cache st 0 (doc.take i)).2.2
      (lexLines ws cache st 0 (doc.take i)).2.1 (0 + (doc.take i).length)
      ((doc.drop i).take n)).1.length = n := by
    rw [lexLines_length, hlen2]
  rw [List.drop_left' hpre]
  rw [List.take_left' hmid]
  simp only [Lex, if_pos, hlen1, Nat.zero_add]

/-- Witness for C1 (amended) at a concrete input: a two-line document
whose first line opens a multi-line comment; re-lexing line 1 from the
boundary state reproduces the whole-document styles of line 1. -/
theorem lex_range_consistency_witness :
    (Lex ⟨[], [], [], [], [], [], [], []⟩ true [[';', '/'], ['x']] 1 1
        (lexLines ⟨[], [], [], [], [], [], [], []⟩ ⟨[], []⟩ StyleState.Default 0
          ([[';', '/'], ['x']].take 1)).2.1
        (lexLines ⟨[], [], [], [], [], [], [], []⟩ ⟨[], []⟩ StyleState.Default 0
          ([[';', '/'], ['x']].take 1)).2.2).1 =
      ((lexLines ⟨[], [], [], [], [], [], [], []⟩ ⟨[], []⟩ StyleState.Default 0
          [[';', '/'], ['x']]).1.drop 1).take 1 :=
  lex_range_consistency ⟨[], [], [], [], [], [], [], []⟩ [[';', '/'], ['x']]
    1 1 ⟨[], []⟩ StyleState.Default (by decide)

/-- Counterexample for C1 as stated: with only the StyleState carried in
correctly (here Default, which is the correct boundary state) but the
per-document property cache not carried (a fresh empty cache), re-lexing
line 1 of a document whose line 0 declares property `b` styles the
reference `b` as Default, while the whole-document lex styles it as
Property — the sliced styles differ. -/
theorem lex_range_consistency_counterexample :
    (lexLines ⟨[], [], [], [], [], [], [], []⟩ ⟨[], []⟩ StyleState.Default 0
        ([['p', 'r', 'o', 'p', 'e', 'r', 't', 'y', ' ', 'a', ' ', 'b'],
          ['b']].take 1)).2.1 =
      StyleState.Default ∧
    (Lex ⟨[], [], [], [], [], [], [], []⟩ true
        [['p', 'r', 'o', 'p', 'e', 'r', 't', 'y', ' ', 'a', ' ', 'b'], ['b']]
        1 1 StyleState.Default ⟨[], []⟩).1 ≠
      ((lexLines ⟨[], [], [], [], [], [], [], []⟩ ⟨[], []⟩ StyleState.Default 0
          [['p', 'r', 'o', 'p', 'e', 'r', 't', 'y', ' ', 'a', ' ', 'b'],
            ['b']]).1.drop 1).take 1 := by
  constructor
  · decide
  · decide

end Papyrus
